import Mathlib

/-!
Formal model of the Soccer_blog repository (src/generate_blog.py).

The script has two functions.  fetch_and_process_data reads a CSV of
finished matches into a dataframe, drops columns whose every entry is
missing, builds a team-centric view (one row per team per match, taken
once from the home side and once from the away side), groups by team,
aggregates counts and sums, derives a rounded win rate, and produces one
findings sentence about the team with the highest win rate.
generate_html renders the summary table and the findings into an HTML
template read from the fixed path index.html, replacing three
placeholder tokens, and writes the result to an output path.

Modelling conventions:
 * a CSV row is a MatchRecord; a missing numeric cell (NaN in pandas)
   is modelled as none, a present cell as some value;
 * the Date, HOME and AWAY cells are modelled as always present
   (the spec declares one date and two team names per played match);
 * floating point is avoided: after the round(2) call the win rate is
   conceptually an exact multiple of 1/100, so it is carried as the
   natural number win_rate100 (the rate times 100).  Rounding is round
   half to even, as numpy.round performs on the scaled value; the
   negligible float-representation noise of the real program is below
   the granularity of this model;
 * file contents and the clock are modelled by an explicit World value,
   since the script reads them ambiently;
 * pandas errors (dropping every column when all entries are missing,
   then selecting absent columns; taking iloc 0 of an empty frame)
   are modelled by returning none.
-/

namespace SoccerBlog

/-- One row of the input CSV: date, home team, away team and the two
goal counts.  A missing goal cell is none. -/
structure MatchRecord where
  date : String
  home : String
  away : String
  hGoals : Option Int
  aGoals : Option Int
deriving DecidableEq, Repr

/-- One team-centric row of the concatenated view built from the home
and away perspectives (columns Date, TEAM, GOALS_FOR, GOALS_AGAINST). -/
structure TeamOutcome where
  date : String
  team : String
  goalsFor : Option Int
  goalsAgainst : Option Int
deriving DecidableEq, Repr

/-- The RESULT column: GOALS_FOR - GOALS_AGAINST.  In pandas an
arithmetic operation with a missing operand is missing. -/
def TeamOutcome.result (o : TeamOutcome) : Option Int :=
  match o.goalsFor, o.goalsAgainst with
  | some f, some a => some (f - a)
  | _, _ => none

/-- The IS_WIN column: RESULT strictly positive.  A missing RESULT
compares as false, exactly as a NaN comparison does in pandas. -/
def TeamOutcome.isWin (o : TeamOutcome) : Bool :=
  match o.result with
  | some r => 0 < r
  | none => false

/-- The IS_DRAW column: RESULT equal to zero (false when missing). -/
def TeamOutcome.isDraw (o : TeamOutcome) : Bool :=
  match o.result with
  | some r => r = 0
  | none => false

/-- The IS_LOSS column: RESULT strictly negative (false when missing). -/
def TeamOutcome.isLoss (o : TeamOutcome) : Bool :=
  match o.result with
  | some r => r < 0
  | none => false

/-- The home-perspective row derived from a record: columns Date, HOME,
H_GOALS, A_GOALS renamed to Date, TEAM, GOALS_FOR, GOALS_AGAINST. -/
def homeOutcome (r : MatchRecord) : TeamOutcome :=
  { date := r.date, team := r.home, goalsFor := r.hGoals, goalsAgainst := r.aGoals }

/-- The away-perspective row derived from a record: columns Date, AWAY,
A_GOALS, H_GOALS renamed to Date, TEAM, GOALS_FOR, GOALS_AGAINST. -/
def awayOutcome (r : MatchRecord) : TeamOutcome :=
  { date := r.date, team := r.away, goalsFor := r.aGoals, goalsAgainst := r.hGoals }

/-- The all_matches frame: pd.concat of the home view and the away
view, in that order. -/
def allMatches (rs : List MatchRecord) : List TeamOutcome :=
  rs.map homeOutcome ++ rs.map awayOutcome

/-- The distinct TEAM values of the concatenated view. -/
def teamsOf (rs : List MatchRecord) : List String :=
  ((allMatches rs).map (fun o => o.team)).dedup

/-- Strict lexicographic order on character lists by code point,
used to model the ascending key order of pandas groupby. -/
def charsLt : List Char → List Char → Bool
  | [], [] => false
  | [], _ :: _ => true
  | _ :: _, [] => false
  | a :: as, b :: bs =>
      if a.toNat < b.toNat then true
      else if b.toNat < a.toNat then false
      else charsLt as bs

/-- Insertion into an ascending list, keeping the new element before
the first strictly greater one. -/
def insertAsc (x : String) : List String → List String
  | [] => [x]
  | y :: ys => if charsLt x.data y.data then x :: y :: ys else y :: insertAsc x ys

/-- Ascending insertion sort on strings. -/
def sortAsc : List String → List String
  | [] => []
  | x :: xs => insertAsc x (sortAsc xs)

/-- The group keys of groupby on TEAM: the distinct team names in
ascending order (groupby sorts its keys). -/
def sortedTeams (rs : List MatchRecord) : List String :=
  sortAsc (teamsOf rs)

/-- The group of a team: the rows of the concatenated view whose TEAM
column equals the given name. -/
def matchesOf (rs : List MatchRecord) (t : String) : List TeamOutcome :=
  (allMatches rs).filter (fun o => decide (o.team = t))

/-- Rounding of (100 * wins) / played to the nearest natural number,
ties to even: the value of (wins / played).round(2) scaled by 100. -/
def roundRate (wins played : Nat) : Nat :=
  let n := 100 * wins
  let q := n / played
  let r := n % played
  if 2 * r < played then q
  else if played < 2 * r then q + 1
  else if q % 2 = 0 then q else q + 1

/-- One aggregated row of the team_summary frame.  The win_rate column
of the script is a float that round(2) makes an exact multiple of
1/100; it is carried here exactly as win_rate100, the rate times 100. -/
structure TeamSummary where
  team : String
  matches_played : Nat
  total_goals_for : Int
  total_goals_against : Int
  total_wins : Nat
  win_rate100 : Nat
deriving DecidableEq, Repr

/-- The win_rate column as the rational number it represents. -/
def TeamSummary.winRateQ (s : TeamSummary) : ℚ :=
  (s.win_rate100 : ℚ) / 100

/-- The aggregated row of one team: matches_played counts the rows of
the group (the Date cell is always present), the goal totals sum the
present cells (pandas sum skips missing values), total_wins sums the
0/1 IS_WIN column, and win_rate100 is the rounded scaled ratio. -/
def mkSummary (rs : List MatchRecord) (t : String) : TeamSummary :=
  let os := matchesOf rs t
  let wins := (os.map (fun o => if o.isWin then 1 else 0)).sum
  { team := t
    matches_played := os.length
    total_goals_for := (os.filterMap (fun o => o.goalsFor)).sum
    total_goals_against := (os.filterMap (fun o => o.goalsAgainst)).sum
    total_wins := wins
    win_rate100 := roundRate wins os.length }

/-- The team_summary frame: one aggregated row per group key, keys in
ascending order. -/
def team_summary (rs : List MatchRecord) : List TeamSummary :=
  (sortedTeams rs).map (mkSummary rs)

/-- Two-digit zero-padded rendering of a natural number below 100. -/
def pad2 (n : Nat) : String :=
  if n < 10 then "0" ++ toString n else toString n

/-- Rendering of a scaled rate k as the fixed-point decimal k/100 with
exactly two decimal places, as the .2f format specifier prints the
win_rate float. -/
def fmt2 (k : Nat) : String :=
  toString (k / 100) ++ "." ++ pad2 (k % 100)

/-- The findings sentence built from the top row. -/
def findingString (s : TeamSummary) : String :=
  "The team with the highest win rate is " ++ s.team ++
    " with a win rate of " ++ fmt2 s.win_rate100 ++ "."

/-- One comparison step of the selection of the top row: keep the
challenger exactly when its win rate is strictly higher. -/
def maxStep (best t : TeamSummary) : TeamSummary :=
  if best.win_rate100 < t.win_rate100 then t else best

/-- The row selected by sorting on win_rate descending and taking
iloc 0: a row of maximal win rate.  The unstable sort of the script
leaves the choice among tied rows incidental; the model keeps the
earliest tied row.  On an empty frame iloc 0 raises, modelled as
none. -/
def topTeam : List TeamSummary → Option TeamSummary
  | [] => none
  | s :: rest => some (rest.foldl maxStep s)

/-- The whole aggregator.  A column whose every entry is missing is
dropped before the column selection, so an input whose H_GOALS or
A_GOALS column is entirely missing (in particular an input with no
rows at all, where every column is dropped) makes the selection of the
required columns raise; modelled as none.  Likewise the iloc 0 of an
empty summary raises, modelled as none.  Otherwise the summary frame
and the findings list are returned. -/
def fetch_and_process_data (rs : List MatchRecord) :
    Option (List TeamSummary × List String) :=
  if rs.all (fun r => r.hGoals.isNone) || rs.all (fun r => r.aGoals.isNone) then none
  else
    match topTeam (team_summary rs) with
    | none => none
    | some top => some (team_summary rs, [findingString top])

/-- The one-match input of the testable properties of the spec. -/
def oneMatch : MatchRecord :=
  { date := "2024-01-01", home := "A", away := "B", hGoals := some 2, aGoals := some 0 }

/-- Test whether the first list starts with the second. -/
def leadMatch : List Char → List Char → Bool
  | _, [] => true
  | [], _ :: _ => false
  | c :: cs, p :: ps => p == c && leadMatch cs ps

/-- Replacement of every non-overlapping occurrence of a pattern,
scanning left to right and continuing after the inserted replacement,
as the Python str.replace method does.  The fuel argument bounds the
recursion; a fuel of at least the length of the scanned list is enough
because every step consumes at least one character. -/
def replaceAllAux (pat rep : List Char) : Nat → List Char → List Char
  | _, [] => []
  | 0, s => s
  | fuel + 1, c :: cs =>
      if pat ≠ [] && leadMatch (c :: cs) pat then
        rep ++ replaceAllAux pat rep fuel (List.drop (pat.length - 1) cs)
      else
        c :: replaceAllAux pat rep fuel cs

/-- Global literal substring replacement on strings, the model of
Python str.replace with a non-empty pattern. -/
def strReplace (s pat rep : String) : String :=
  String.mk (replaceAllAux pat.data rep.data s.data.length s.data)

/-- Test whether a pattern occurs somewhere in a character list. -/
def containsChars (pat : List Char) : List Char → Bool
  | [] => leadMatch [] pat
  | c :: cs => leadMatch (c :: cs) pat || containsChars pat cs

/-- Test whether the second string occurs as a substring of the first. -/
def containsStr (s pat : String) : Bool :=
  containsChars pat.data s.data

/-- Four-digit zero-padded rendering of a year. -/
def pad4 (n : Nat) : String :=
  if n < 10 then "000" ++ toString n
  else if n < 100 then "00" ++ toString n
  else if n < 1000 then "0" ++ toString n
  else toString n

/-- A wall-clock instant, the value datetime.now() observes. -/
structure DateTime where
  year : Nat
  month : Nat
  day : Nat
  hour : Nat
  minute : Nat
  second : Nat
deriving DecidableEq, Repr

/-- The strftime format string of the script, percent Y-m-d H:M:S. -/
def strftime (d : DateTime) : String :=
  pad4 d.year ++ "-" ++ pad2 d.month ++ "-" ++ pad2 d.day ++ " " ++
    pad2 d.hour ++ ":" ++ pad2 d.minute ++ ":" ++ pad2 d.second

/-- One table-row fragment of the summary table, with the exact
whitespace of the f-string in the script. -/
def rowFragment (s : TeamSummary) : String :=
  "\n        <tr>\n            <td>" ++ s.team ++
    "</td>\n            <td>" ++ toString s.matches_played ++
    "</td>\n            <td>" ++ toString s.total_goals_for ++
    "</td>\n            <td>" ++ toString s.total_goals_against ++
    "</td>\n            <td>" ++ toString s.total_wins ++
    "</td>\n            <td>" ++ fmt2 s.win_rate100 ++
    "</td>\n        </tr>\n        "

/-- The concatenation of all table-row fragments. -/
def teamSummaryRows (ts : List TeamSummary) : String :=
  String.join (ts.map rowFragment)

/-- The concatenation of one list-item fragment per finding. -/
def interestingFindings (fs : List String) : String :=
  String.join (fs.map (fun f => "<li>" ++ f ++ "</li>"))

/-- The last_updated placeholder token, braces written as escapes. -/
def tokLastUpdated : String := "\x7b\x7blast_updated\x7d\x7d"

/-- The team_summary_rows placeholder token. -/
def tokRows : String := "\x7b\x7bteam_summary_rows\x7d\x7d"

/-- The interesting_findings placeholder token. -/
def tokFindings : String := "\x7b\x7binteresting_findings\x7d\x7d"

/-- The pure rendering core: the three placeholder tokens replaced in
the template, in the order the script performs the replacements, with
the clock instant formatted for the last_updated token. -/
def renderHtml (ts : List TeamSummary) (fs : List String) (now : DateTime)
    (tmpl : String) : String :=
  strReplace
    (strReplace
      (strReplace tmpl tokLastUpdated (strftime now))
      tokRows (teamSummaryRows ts))
    tokFindings (interestingFindings fs)

/-- The ambient state the script touches: the clock and the files on
disk, an association list from path to content in which a lookup finds
the most recent write. -/
structure World where
  now : DateTime
  files : List (String × String)
deriving DecidableEq, Repr

/-- Reading a file: the most recently written content at the path,
none when the path does not exist. -/
def readFile (w : World) (p : String) : Option String :=
  (w.files.find? (fun kv => kv.1 == p)).map (fun kv => kv.2)

/-- Writing a file: the new content shadows any previous content at
the path. -/
def writeFile (w : World) (p c : String) : World :=
  { w with files := (p, c) :: w.files }

/-- The path the template is read from, hard-coded in the script. -/
def templatePath : String := "index.html"

/-- The generate_html function: reads the template from the fixed path
index.html (raising, modelled as none, when it is absent), replaces
the three placeholder tokens, and writes the result to the given
output path.  The timestamp substituted is the current clock instant
of the world; it is not a parameter of the script function. -/
def generate_html (team_summary : List TeamSummary) (findings : List String)
    (output_path : String) (w : World) : Option World :=
  match readFile w templatePath with
  | none => none
  | some tmpl => some (writeFile w output_path (renderHtml team_summary findings w.now tmpl))

/-- The configured source location constant of the script. -/
def CSV_URL : String :=
  "https://raw.githubusercontent.com/JOSPHATT/Finished_Matches/refs/heads/main/Finished_matches.csv"

/-- The configured output path constant of the script. -/
def OUTPUT_PATH : String := "index.html"

/-- The top-level driver: aggregate the fetched records, then render,
aborting (none) when either step raises. -/
def runScript (records : List MatchRecord) (w : World) : Option World :=
  match fetch_and_process_data records with
  | none => none
  | some (ts, fs) => generate_html ts fs OUTPUT_PATH w

/-- A record of the input with a missing home-goals cell, used to
exercise the handling of missing values. -/
def rMissing : MatchRecord :=
  { date := "2024-01-02", home := "A", away := "B", hGoals := none, aGoals := some 1 }

/-- A fully populated companion record, keeping the goal columns from
being entirely missing. -/
def rOk : MatchRecord :=
  { date := "2024-01-03", home := "C", away := "D", hGoals := some 2, aGoals := some 0 }

/-- A concrete world whose template file is the bare last_updated
token, at one clock instant. -/
def w6a : World :=
  { now := { year := 2024, month := 1, day := 1, hour := 0, minute := 0, second := 0 },
    files := [("index.html", tokLastUpdated)] }

/-- The same files as w6a at a different clock instant. -/
def w6b : World :=
  { now := { year := 2025, month := 6, day := 2, hour := 3, minute := 4, second := 5 },
    files := [("index.html", tokLastUpdated)] }

/-- The template of the rendering test of the spec: the three tokens
wrapped in a paragraph, a table and a list. -/
def tmpl7 : String :=
  "<p>" ++ tokLastUpdated ++ "</p><table>" ++ tokRows ++ "</table><ul>" ++
    tokFindings ++ "</ul>"

/-- The clock instant used for the concrete rendering tests. -/
def now7 : DateTime :=
  { year := 2024, month := 1, day := 1, hour := 0, minute := 0, second := 0 }

/-- The finding of the one-match input. -/
def finding7 : String :=
  "The team with the highest win rate is A with a win rate of 1.00."

/-! Helper lemmas about the sorted key list. -/

lemma insertAsc_perm (x : String) : ∀ l : List String, (insertAsc x l).Perm (x :: l) := by
  intro l
  induction l with
  | nil => simp [insertAsc]
  | cons y ys ih =>
      by_cases h : charsLt x.data y.data
      · simp [insertAsc, h]
      · simp only [insertAsc, h, if_false]
        exact ((ih.cons y).trans (List.Perm.swap x y ys))

lemma sortAsc_perm : ∀ l : List String, (sortAsc l).Perm l := by
  intro l
  induction l with
  | nil => simp [sortAsc]
  | cons x xs ih => exact (insertAsc_perm x (sortAsc xs)).trans (ih.cons x)

lemma mem_sortedTeams {rs : List MatchRecord} {t : String} :
    t ∈ sortedTeams rs ↔ t ∈ teamsOf rs :=
  (sortAsc_perm (teamsOf rs)).mem_iff

lemma nodup_sortedTeams (rs : List MatchRecord) : (sortedTeams rs).Nodup :=
  ((sortAsc_perm (teamsOf rs)).nodup_iff).mpr (List.nodup_dedup _)

lemma mem_teamsOf_outcome {rs : List MatchRecord} {t : String} :
    t ∈ teamsOf rs ↔ ∃ o ∈ allMatches rs, o.team = t := by
  simp [teamsOf, List.mem_dedup, List.mem_map]

lemma mem_allMatches {rs : List MatchRecord} {o : TeamOutcome} :
    o ∈ allMatches rs ↔ (∃ r ∈ rs, homeOutcome r = o) ∨ ∃ r ∈ rs, awayOutcome r = o := by
  simp [allMatches, List.mem_append, List.mem_map]

lemma mem_teamsOf {rs : List MatchRecord} {t : String} :
    t ∈ teamsOf rs ↔ ∃ r ∈ rs, r.home = t ∨ r.away = t := by
  rw [mem_teamsOf_outcome]
  constructor
  · rintro ⟨o, ho, hteam⟩
    rcases mem_allMatches.mp ho with ⟨r, hr, rfl⟩ | ⟨r, hr, rfl⟩
    · exact ⟨r, hr, Or.inl hteam⟩
    · exact ⟨r, hr, Or.inr hteam⟩
  · rintro ⟨r, hr, h | h⟩
    · exact ⟨homeOutcome r, mem_allMatches.mpr (Or.inl ⟨r, hr, rfl⟩), h⟩
    · exact ⟨awayOutcome r, mem_allMatches.mpr (Or.inr ⟨r, hr, rfl⟩), h⟩

lemma team_mem_sortedTeams {rs : List MatchRecord} {o : TeamOutcome}
    (h : o ∈ allMatches rs) : o.team ∈ sortedTeams rs :=
  mem_sortedTeams.mpr (mem_teamsOf_outcome.mpr ⟨o, h, rfl⟩)

/-! Helper lemmas about the aggregated rows. -/

lemma mkSummary_team (rs : List MatchRecord) (t : String) : (mkSummary rs t).team = t := rfl

lemma mkSummary_played (rs : List MatchRecord) (t : String) :
    (mkSummary rs t).matches_played = (matchesOf rs t).length := rfl

lemma mkSummary_wins (rs : List MatchRecord) (t : String) :
    (mkSummary rs t).total_wins =
      ((matchesOf rs t).map (fun o => if o.isWin then 1 else 0)).sum := rfl

lemma mkSummary_gf (rs : List MatchRecord) (t : String) :
    (mkSummary rs t).total_goals_for =
      ((matchesOf rs t).filterMap (fun o => o.goalsFor)).sum := rfl

lemma mkSummary_ga (rs : List MatchRecord) (t : String) :
    (mkSummary rs t).total_goals_against =
      ((matchesOf rs t).filterMap (fun o => o.goalsAgainst)).sum := rfl

lemma mkSummary_rate (rs : List MatchRecord) (t : String) :
    (mkSummary rs t).win_rate100 =
      roundRate (mkSummary rs t).total_wins (mkSummary rs t).matches_played := rfl

lemma mem_team_summary {rs : List MatchRecord} {s : TeamSummary} :
    s ∈ team_summary rs ↔ ∃ t ∈ sortedTeams rs, mkSummary rs t = s := by
  simp [team_summary, List.mem_map]

lemma winsSum_le_length :
    ∀ os : List TeamOutcome, ((os.map (fun o => if o.isWin then 1 else 0)).sum : Nat) ≤ os.length := by
  intro os
  induction os with
  | nil => simp
  | cons o os ih =>
      simp only [List.map_cons, List.sum_cons, List.length_cons]
      by_cases h : o.isWin <;> simp [h] <;> omega

lemma matchesOf_ne_nil {rs : List MatchRecord} {t : String} (h : t ∈ teamsOf rs) :
    matchesOf rs t ≠ [] := by
  rcases mem_teamsOf_outcome.mp h with ⟨o, ho, hteam⟩
  have : o ∈ matchesOf rs t := by
    simp [matchesOf, List.mem_filter, ho, hteam]
  exact List.ne_nil_of_mem this

/-! Helper lemmas about the rounded rate. -/

lemma roundRate_le_100 {wins played : Nat} (hle : wins ≤ played) (hpos : 0 < played) :
    roundRate wins played ≤ 100 := by
  unfold roundRate
  set n := 100 * wins with hn
  have hmod : played * (n / played) + n % played = n := Nat.div_add_mod n played
  have hlt : n % played < played := Nat.mod_lt _ hpos
  have hbound : n ≤ 100 * played := by
    calc n = 100 * wins := hn
    _ ≤ 100 * played := Nat.mul_le_mul_left _ hle
  have hq : n / played ≤ 100 := by
    calc n / played ≤ (100 * played) / played := Nat.div_le_div_right hbound
    _ = 100 := Nat.mul_div_cancel 100 hpos
  by_cases h1 : 2 * (n % played) < played
  · simp only [h1, if_true]
    exact hq
  · have hrpos : 0 < n % played := by omega
    have hq99 : n / played < 100 := by
      rcases Nat.lt_or_ge (n / played) 100 with h | h
      · exact h
      · exfalso
        have h100 : n / played = 100 := le_antisymm hq h
        rw [h100] at hmod
        omega
    by_cases h2 : played < 2 * (n % played)
    · simp only [h1, if_false, h2, if_true]
      omega
    · simp only [h1, if_false, h2, if_false]
      by_cases h3 : n / played % 2 = 0 <;> simp [h3] <;> omega

lemma winRateQ_nonneg (s : TeamSummary) : 0 ≤ s.winRateQ := by
  unfold TeamSummary.winRateQ
  positivity

lemma winRateQ_le_one {s : TeamSummary} (h : s.win_rate100 ≤ 100) : s.winRateQ ≤ 1 := by
  unfold TeamSummary.winRateQ
  rw [div_le_one (by norm_num)]
  exact_mod_cast h

lemma winRateQ_mono {x y : TeamSummary} (h : x.win_rate100 ≤ y.win_rate100) :
    x.winRateQ ≤ y.winRateQ := by
  unfold TeamSummary.winRateQ
  have hx : (x.win_rate100 : ℚ) ≤ (y.win_rate100 : ℚ) := by exact_mod_cast h
  exact div_le_div_of_nonneg_right hx (by norm_num) |>.trans_eq rfl

/-! Helper lemmas about the selection of the top row. -/

lemma foldMax_mem (b : TeamSummary) : ∀ l : List TeamSummary,
    l.foldl maxStep b = b ∨ l.foldl maxStep b ∈ l := by
  intro l
  induction l generalizing b with
  | nil => exact Or.inl rfl
  | cons x xs ih =>
      simp only [List.foldl_cons]
      rcases ih (maxStep b x) with h | h
      · rw [h]
        unfold maxStep
        by_cases hc : b.win_rate100 < x.win_rate100
        · simp [hc]
        · simp [hc]
      · exact Or.inr (List.mem_cons_of_mem x h)

lemma le_maxStep_left (b t : TeamSummary) : b.win_rate100 ≤ (maxStep b t).win_rate100 := by
  unfold maxStep
  by_cases h : b.win_rate100 < t.win_rate100
  · simp only [h, if_true]
    omega
  · simp [h]

lemma le_maxStep_right (b t : TeamSummary) : t.win_rate100 ≤ (maxStep b t).win_rate100 := by
  unfold maxStep
  by_cases h : b.win_rate100 < t.win_rate100
  · simp [h]
  · simp only [h, if_false]
    omega

lemma foldMax_ge_init (b : TeamSummary) : ∀ l : List TeamSummary,
    b.win_rate100 ≤ (l.foldl maxStep b).win_rate100 := by
  intro l
  induction l generalizing b with
  | nil => exact le_refl _
  | cons x xs ih =>
      simp only [List.foldl_cons]
      exact (le_maxStep_left b x).trans (ih (maxStep b x))

lemma foldMax_ge_mem (b : TeamSummary) : ∀ l : List TeamSummary, ∀ x ∈ l,
    x.win_rate100 ≤ (l.foldl maxStep b).win_rate100 := by
  intro l
  induction l generalizing b with
  | nil => intro x hx; cases hx
  | cons y ys ih =>
      intro x hx
      simp only [List.foldl_cons]
      rcases List.mem_cons.mp hx with rfl | hx
      · exact (le_maxStep_right b x).trans (foldMax_ge_init (maxStep b x) ys)
      · exact ih (maxStep b y) x hx

lemma topTeam_mem {l : List TeamSummary} {m : TeamSummary} (h : topTeam l = some m) :
    m ∈ l := by
  cases l with
  | nil => simp [topTeam] at h
  | cons s rest =>
      simp only [topTeam, Option.some.injEq] at h
      rcases foldMax_mem s rest with h' | h'
      · rw [← h, h']
        exact List.mem_cons_self s rest
      · rw [← h]
        exact List.mem_cons_of_mem s h'

lemma topTeam_max {l : List TeamSummary} {m : TeamSummary} (h : topTeam l = some m) :
    ∀ x ∈ l, x.win_rate100 ≤ m.win_rate100 := by
  cases l with
  | nil => simp [topTeam] at h
  | cons s rest =>
      simp only [topTeam, Option.some.injEq] at h
      intro x hx
      rcases List.mem_cons.mp hx with rfl | hx
      · rw [← h]
        exact foldMax_ge_init x rest
      · rw [← h]
        exact foldMax_ge_mem s rest x hx

lemma topTeam_of_ne_nil {l : List TeamSummary} (h : l ≠ []) :
    ∃ m, topTeam l = some m := by
  cases l with
  | nil => exact absurd rfl h
  | cons s rest => exact ⟨rest.foldl maxStep s, rfl⟩

/-! Helper lemmas counting summary rows per team name. -/

lemma filter_len_zero_of_not_mem {t : String} :
    ∀ l : List String, t ∉ l → (l.filter (fun u => decide (u = t))).length = 0 := by
  intro l
  induction l with
  | nil => intro _; rfl
  | cons x xs ih =>
      intro h
      rw [List.mem_cons, not_or] at h
      have hx : decide (x = t) = false := by
        simp only [decide_eq_false_iff_not]
        exact fun hxt => h.1 hxt.symm
      simp only [List.filter_cons, hx, Bool.false_eq_true, if_false]
      exact ih h.2

lemma filter_len_of_nodup {t : String} :
    ∀ l : List String, l.Nodup →
      (l.filter (fun u => decide (u = t))).length = if t ∈ l then 1 else 0 := by
  intro l
  induction l with
  | nil => intro _; simp
  | cons x xs ih =>
      intro hnd
      rw [List.nodup_cons] at hnd
      by_cases hx : x = t
      · subst hx
        have h0 : (xs.filter (fun u => decide (u = x))).length = 0 :=
          filter_len_zero_of_not_mem xs hnd.1
        simp [List.filter_cons, h0, List.mem_cons]
      · have hne : ¬ t = x := fun h => hx h.symm
        have hdec : decide (x = t) = false := by
          simp only [decide_eq_false_iff_not]
          exact hx
        simp only [List.filter_cons, hdec, Bool.false_eq_true, if_false]
        rw [ih hnd.2]
        simp [List.mem_cons, hne]

lemma team_summary_filter (rs : List MatchRecord) (t : String) :
    (team_summary rs).filter (fun s => decide (s.team = t)) =
      ((sortedTeams rs).filter (fun u => decide (u = t))).map (mkSummary rs) := by
  unfold team_summary
  rw [List.filter_map]
  rfl

/-! Helper lemmas for summing a column over all summary rows. -/

lemma sum_filterMap_getD (f : TeamOutcome → Option Int) :
    ∀ os : List TeamOutcome,
      (os.filterMap f).sum = (os.map (fun o => (f o).getD 0)).sum := by
  intro os
  induction os with
  | nil => rfl
  | cons o os ih =>
      cases hf : f o <;> simp [List.filterMap_cons, hf, ih]

lemma sum_map_add (g h : String → Int) :
    ∀ l : List String,
      (l.map (fun x => g x + h x)).sum = (l.map g).sum + (l.map h).sum := by
  intro l
  induction l with
  | nil => simp
  | cons x xs ih =>
      simp only [List.map_cons, List.sum_cons, ih]
      ring

lemma sum_ite_not_mem (c : Int) (a : String) :
    ∀ ts : List String, a ∉ ts →
      (ts.map (fun t => if a = t then c else 0)).sum = 0 := by
  intro ts
  induction ts with
  | nil => intro _; rfl
  | cons x xs ih =>
      intro h
      rw [List.mem_cons, not_or] at h
      simp only [List.map_cons, List.sum_cons, if_neg h.1, zero_add]
      exact ih h.2

lemma sum_ite_mem (c : Int) (a : String) :
    ∀ ts : List String, ts.Nodup → a ∈ ts →
      (ts.map (fun t => if a = t then c else 0)).sum = c := by
  intro ts
  induction ts with
  | nil => intro _ h; cases h
  | cons x xs ih =>
      intro hnd hmem
      rw [List.nodup_cons] at hnd
      rcases List.mem_cons.mp hmem with rfl | hmem'
      · simp only [List.map_cons, List.sum_cons]
        rw [if_pos trivial, sum_ite_not_mem _ _ xs hnd.1, add_zero]
      · have hne : a ≠ x := fun h => hnd.1 (h ▸ hmem')
        simp only [List.map_cons, List.sum_cons, if_neg hne, zero_add]
        exact ih hnd.2 hmem'

lemma sum_fiber (f : TeamOutcome → Int) :
    ∀ (os : List TeamOutcome) (ts : List String), ts.Nodup →
      (∀ o ∈ os, o.team ∈ ts) →
      (ts.map (fun t => ((os.filter (fun o => decide (o.team = t))).map f).sum)).sum =
        (os.map f).sum := by
  intro os
  induction os with
  | nil =>
      intro ts _ _
      simp only [List.filter_nil, List.map_nil, List.sum_nil]
      exact List.sum_eq_zero (by intro x hx; rcases List.mem_map.mp hx with ⟨t, _, rfl⟩; rfl)
  | cons o os ih =>
      intro ts hnd hcov
      have hsplit :
          (fun t => (((o :: os).filter (fun o' => decide (o'.team = t))).map f).sum) =
            fun t => (if o.team = t then f o else 0) +
              ((os.filter (fun o' => decide (o'.team = t))).map f).sum := by
        funext t
        by_cases h : o.team = t
        · simp [List.filter_cons, h]
        · simp [List.filter_cons, h]
      rw [hsplit, sum_map_add]
      rw [sum_ite_mem (f o) o.team ts hnd (hcov o (List.mem_cons_self o os))]
      rw [ih ts hnd (fun o' ho' => hcov o' (List.mem_cons_of_mem o ho'))]
      simp

lemma summary_sum_gf (rs : List MatchRecord) :
    ((team_summary rs).map (fun s => s.total_goals_for)).sum =
      ((allMatches rs).map (fun o => o.goalsFor.getD 0)).sum := by
  unfold team_summary
  rw [List.map_map]
  have h1 : ((fun s : TeamSummary => s.total_goals_for) ∘ mkSummary rs) =
      fun t => (((allMatches rs).filter (fun o => decide (o.team = t))).map
        (fun o => o.goalsFor.getD 0)).sum := by
    funext t
    simp only [Function.comp_apply, mkSummary_gf, matchesOf]
    exact sum_filterMap_getD (fun o => o.goalsFor) _
  rw [h1]
  exact sum_fiber (fun o => o.goalsFor.getD 0) (allMatches rs) (sortedTeams rs)
    (nodup_sortedTeams rs) (fun o ho => team_mem_sortedTeams ho)

lemma summary_sum_ga (rs : List MatchRecord) :
    ((team_summary rs).map (fun s => s.total_goals_against)).sum =
      ((allMatches rs).map (fun o => o.goalsAgainst.getD 0)).sum := by
  unfold team_summary
  rw [List.map_map]
  have h1 : ((fun s : TeamSummary => s.total_goals_against) ∘ mkSummary rs) =
      fun t => (((allMatches rs).filter (fun o => decide (o.team = t))).map
        (fun o => o.goalsAgainst.getD 0)).sum := by
    funext t
    simp only [Function.comp_apply, mkSummary_ga, matchesOf]
    exact sum_filterMap_getD (fun o => o.goalsAgainst) _
  rw [h1]
  exact sum_fiber (fun o => o.goalsAgainst.getD 0) (allMatches rs) (sortedTeams rs)
    (nodup_sortedTeams rs) (fun o ho => team_mem_sortedTeams ho)

lemma allMatches_balance (rs : List MatchRecord) :
    ((allMatches rs).map (fun o => o.goalsFor.getD 0)).sum =
      ((allMatches rs).map (fun o => o.goalsAgainst.getD 0)).sum := by
  unfold allMatches
  rw [List.map_append, List.map_append, List.sum_append, List.sum_append,
    List.map_map, List.map_map, List.map_map, List.map_map]
  have e1 : ((fun o : TeamOutcome => o.goalsFor.getD 0) ∘ homeOutcome) =
      fun r : MatchRecord => r.hGoals.getD 0 := rfl
  have e2 : ((fun o : TeamOutcome => o.goalsFor.getD 0) ∘ awayOutcome) =
      fun r : MatchRecord => r.aGoals.getD 0 := rfl
  have e3 : ((fun o : TeamOutcome => o.goalsAgainst.getD 0) ∘ homeOutcome) =
      fun r : MatchRecord => r.aGoals.getD 0 := rfl
  have e4 : ((fun o : TeamOutcome => o.goalsAgainst.getD 0) ∘ awayOutcome) =
      fun r : MatchRecord => r.hGoals.getD 0 := rfl
  rw [e1, e2, e3, e4]
  exact add_comm _ _

/-! Helper lemma: a well-formed nonempty input makes the aggregator
return a result. -/

lemma fetch_some_of_goals {rs : List MatchRecord}
    (hh : ∃ r ∈ rs, r.hGoals.isSome) (ha : ∃ r ∈ rs, r.aGoals.isSome) :
    ∃ out, fetch_and_process_data rs = some out := by
  have hne : rs ≠ [] := by
    rcases hh with ⟨r, hr, _⟩
    exact List.ne_nil_of_mem hr
  have hguard :
      (rs.all (fun r => r.hGoals.isNone) || rs.all (fun r => r.aGoals.isNone)) = false := by
    rw [Bool.or_eq_false_iff]
    constructor
    · rw [List.all_eq_false]
      rcases hh with ⟨r, hr, hs⟩
      rcases Option.isSome_iff_exists.mp hs with ⟨v, hv⟩
      exact ⟨r, hr, by simp [hv]⟩
    · rw [List.all_eq_false]
      rcases ha with ⟨r, hr, hs⟩
      rcases Option.isSome_iff_exists.mp hs with ⟨v, hv⟩
      exact ⟨r, hr, by simp [hv]⟩
  have hts : team_summary rs ≠ [] := by
    intro hcon
    have h0 : sortedTeams rs = [] := List.map_eq_nil_iff.mp hcon
    have h1 : teamsOf rs = [] := by
      have hlen := (sortAsc_perm (teamsOf rs)).length_eq
      rw [show sortAsc (teamsOf rs) = sortedTeams rs from rfl, h0] at hlen
      exact List.length_eq_zero.mp hlen.symm
    have h2 : allMatches rs = [] := by
      have hmap := (List.dedup_eq_nil _).mp h1
      exact List.map_eq_nil_iff.mp hmap
    have h3 : rs.map homeOutcome = [] := (List.append_eq_nil.mp h2).1
    exact hne (List.map_eq_nil_iff.mp h3)
  obtain ⟨top, htop⟩ := topTeam_of_ne_nil hts
  refine ⟨(team_summary rs, [findingString top]), ?_⟩
  simp only [fetch_and_process_data, hguard, Bool.false_eq_true, if_false, htop]

/-! The claims. -/

/-- C1 counterexample: a record with a missing home-goals cell is not
excluded from aggregation.  On the concrete two-record input whose
first record has no home goals, that record still derives a
TeamOutcome row, the aggregator still succeeds, and the summary table
holds a row for team A (a team appearing only in the defective record)
whose matches_played count is 1, contributed by that very record. -/
theorem claim1_counterexample :
    rMissing.hGoals = none ∧
    homeOutcome rMissing ∈ allMatches [rMissing, rOk] ∧
    (fetch_and_process_data [rMissing, rOk]).isSome = true ∧
    ∃ s ∈ team_summary [rMissing, rOk],
      s.team = "A" ∧ s.matches_played = 1 ∧ s.total_wins = 0 ∧ s.total_goals_for = 0 := by
  decide

/-- C1 amended: a record with a missing goal value is not excluded
from the team-centric view: it still derives its two TeamOutcome rows
and still counts towards matches_played of both its teams.  Its RESULT
is missing, so the row is never counted as a win; the missing goal
cells themselves are skipped by the goal sums (the totals sum exactly
the present cells, by definition of the aggregation). -/
theorem claim1_missing_goals_amended (rs : List MatchRecord) (r : MatchRecord)
    (hmem : r ∈ rs) (hmiss : r.hGoals = none ∨ r.aGoals = none) :
    homeOutcome r ∈ allMatches rs ∧ awayOutcome r ∈ allMatches rs ∧
    (homeOutcome r).result = none ∧ (awayOutcome r).result = none ∧
    (homeOutcome r).isWin = false ∧ (awayOutcome r).isWin = false ∧
    0 < (mkSummary rs r.home).matches_played ∧
    0 < (mkSummary rs r.away).matches_played := by
  have hmemH : homeOutcome r ∈ allMatches rs := mem_allMatches.mpr (Or.inl ⟨r, hmem, rfl⟩)
  have hmemA : awayOutcome r ∈ allMatches rs := mem_allMatches.mpr (Or.inr ⟨r, hmem, rfl⟩)
  have hresH : (homeOutcome r).result = none := by
    rcases hmiss with h | h
    · simp [TeamOutcome.result, homeOutcome, h]
    · cases hH : r.hGoals <;> simp [TeamOutcome.result, homeOutcome, h, hH]
  have hresA : (awayOutcome r).result = none := by
    rcases hmiss with h | h
    · cases hA : r.aGoals <;> simp [TeamOutcome.result, awayOutcome, h, hA]
    · simp [TeamOutcome.result, awayOutcome, h]
  have hinH : homeOutcome r ∈ matchesOf rs r.home := by
    simp only [matchesOf, List.mem_filter]
    exact ⟨hmemH, by simp [homeOutcome]⟩
  have hinA : awayOutcome r ∈ matchesOf rs r.away := by
    simp only [matchesOf, List.mem_filter]
    exact ⟨hmemA, by simp [awayOutcome]⟩
  refine ⟨hmemH, hmemA, hresH, hresA, ?_, ?_, ?_, ?_⟩
  · simp [TeamOutcome.isWin, hresH]
  · simp [TeamOutcome.isWin, hresA]
  · rw [mkSummary_played]
    exact List.length_pos.mpr (List.ne_nil_of_mem hinH)
  · rw [mkSummary_played]
    exact List.length_pos.mpr (List.ne_nil_of_mem hinA)

/-- C1 amended, witness at the concrete two-record input. -/
theorem claim1_missing_goals_amended_witness :
    (rMissing ∈ [rMissing, rOk] ∧ (rMissing.hGoals = none ∨ rMissing.aGoals = none)) ∧
    (homeOutcome rMissing ∈ allMatches [rMissing, rOk] ∧
      awayOutcome rMissing ∈ allMatches [rMissing, rOk] ∧
      (homeOutcome rMissing).result = none ∧ (awayOutcome rMissing).result = none ∧
      (homeOutcome rMissing).isWin = false ∧ (awayOutcome rMissing).isWin = false ∧
      0 < (mkSummary [rMissing, rOk] rMissing.home).matches_played ∧
      0 < (mkSummary [rMissing, rOk] rMissing.away).matches_played) :=
  ⟨⟨by decide, Or.inl rfl⟩,
    claim1_missing_goals_amended [rMissing, rOk] rMissing (by decide) (Or.inl rfl)⟩

/-- C2: whenever the aggregator produces output, the findings list is
exactly one sentence naming a summary row of maximal win rate, built
by the findings formatter; any well-formed nonempty input does produce
output; and on the concrete one-match input A beats B two to nil the
findings list is exactly the expected sentence. -/
theorem claim2_highest_win_rate_finding :
    (∀ (rs : List MatchRecord) (ts : List TeamSummary) (fs : List String),
        fetch_and_process_data rs = some (ts, fs) →
        ∃ top, top ∈ ts ∧ (∀ s ∈ ts, s.winRateQ ≤ top.winRateQ) ∧
          fs = [findingString top]) ∧
    (∀ rs : List MatchRecord,
        (∃ r ∈ rs, r.hGoals.isSome) → (∃ r ∈ rs, r.aGoals.isSome) →
        ∃ out, fetch_and_process_data rs = some out) ∧
    (fetch_and_process_data [oneMatch]).map (fun p => p.2) =
      some ["The team with the highest win rate is A with a win rate of 1.00."] := by
  refine ⟨?_, fun rs hh ha => fetch_some_of_goals hh ha, by decide⟩
  intro rs ts fs h
  unfold fetch_and_process_data at h
  by_cases hg : (rs.all (fun r => r.hGoals.isNone) || rs.all (fun r => r.aGoals.isNone)) = true
  · rw [if_pos hg] at h
    cases h
  · rw [if_neg hg] at h
    cases htop : topTeam (team_summary rs) with
    | none =>
        rw [htop] at h
        cases h
    | some top =>
        rw [htop] at h
        rw [Option.some.injEq, Prod.mk.injEq] at h
        obtain ⟨hts, hfs⟩ := h
        subst hts
        subst hfs
        refine ⟨top, topTeam_mem htop, ?_, rfl⟩
        intro s hsmem
        exact winRateQ_mono (topTeam_max htop s hsmem)

/-- C2 witness: the general part applied at the one-match input, the
aggregation equation discharged by evaluation. -/
theorem claim2_highest_win_rate_finding_witness :
    fetch_and_process_data [oneMatch] = some (team_summary [oneMatch],
      ["The team with the highest win rate is A with a win rate of 1.00."]) ∧
    ∃ top, top ∈ team_summary [oneMatch] ∧
      (∀ s ∈ team_summary [oneMatch], s.winRateQ ≤ top.winRateQ) ∧
      ["The team with the highest win rate is A with a win rate of 1.00."] =
        [findingString top] :=
  ⟨by decide, claim2_highest_win_rate_finding.1 [oneMatch] _ _ (by decide)⟩

/-- C3: every record with both goal values present derives exactly two
outcome rows (the concatenated view has twice as many rows as the
input), the two perspectives have swapped goals for and against, their
results are negatives of one another, and equal goals give result zero
in both. -/
theorem claim3_two_perspectives (r : MatchRecord) (hg ag : Int)
    (hh : r.hGoals = some hg) (ha : r.aGoals = some ag) :
    (∀ rs : List MatchRecord, (allMatches rs).length = 2 * rs.length) ∧
    (homeOutcome r).goalsFor = (awayOutcome r).goalsAgainst ∧
    (homeOutcome r).goalsAgainst = (awayOutcome r).goalsFor ∧
    (homeOutcome r).result = some (hg - ag) ∧
    (awayOutcome r).result = some (-(hg - ag)) ∧
    (hg = ag → (homeOutcome r).result = some 0 ∧ (awayOutcome r).result = some 0) := by
  refine ⟨?_, rfl, rfl, ?_, ?_, ?_⟩
  · intro rs
    simp only [allMatches, List.length_append, List.length_map]
    omega
  · simp [TeamOutcome.result, homeOutcome, hh, ha]
  · simp only [TeamOutcome.result, awayOutcome, hh, ha, neg_sub]
  · intro he
    subst he
    constructor <;> simp [TeamOutcome.result, homeOutcome, awayOutcome, hh, ha]

/-- C3 witness at the one-match record, two goals to nil. -/
theorem claim3_two_perspectives_witness :
    (oneMatch.hGoals = some 2 ∧ oneMatch.aGoals = some 0) ∧
    ((∀ rs : List MatchRecord, (allMatches rs).length = 2 * rs.length) ∧
      (homeOutcome oneMatch).goalsFor = (awayOutcome oneMatch).goalsAgainst ∧
      (homeOutcome oneMatch).goalsAgainst = (awayOutcome oneMatch).goalsFor ∧
      (homeOutcome oneMatch).result = some (2 - 0) ∧
      (awayOutcome oneMatch).result = some (-(2 - 0)) ∧
      ((2 : Int) = 0 → (homeOutcome oneMatch).result = some 0 ∧
        (awayOutcome oneMatch).result = some 0)) :=
  ⟨⟨rfl, rfl⟩, claim3_two_perspectives oneMatch 2 0 rfl rfl⟩

/-- C4: every row of the produced summary satisfies the invariants:
wins never exceed matches played, matches played is positive (teams
exist only through observed matches, so the win-rate division never
divides by zero), and the win rate lies between zero and one. -/
theorem claim4_summary_invariants (rs : List MatchRecord) (s : TeamSummary)
    (hs : s ∈ team_summary rs) :
    s.total_wins ≤ s.matches_played ∧ 0 < s.matches_played ∧
      0 ≤ s.winRateQ ∧ s.winRateQ ≤ 1 := by
  rcases mem_team_summary.mp hs with ⟨t, ht, rfl⟩
  have hwins : (mkSummary rs t).total_wins ≤ (mkSummary rs t).matches_played := by
    rw [mkSummary_wins, mkSummary_played]
    exact winsSum_le_length _
  have hpos : 0 < (mkSummary rs t).matches_played := by
    rw [mkSummary_played]
    exact List.length_pos.mpr (matchesOf_ne_nil (mem_sortedTeams.mp ht))
  have hrate : (mkSummary rs t).win_rate100 ≤ 100 := by
    rw [mkSummary_rate]
    exact roundRate_le_100 hwins hpos
  exact ⟨hwins, hpos, winRateQ_nonneg _, winRateQ_le_one hrate⟩

/-- C4 witness at the one-match input, row of team A. -/
theorem claim4_summary_invariants_witness :
    mkSummary [oneMatch] "A" ∈ team_summary [oneMatch] ∧
    ((mkSummary [oneMatch] "A").total_wins ≤ (mkSummary [oneMatch] "A").matches_played ∧
      0 < (mkSummary [oneMatch] "A").matches_played ∧
      0 ≤ (mkSummary [oneMatch] "A").winRateQ ∧ (mkSummary [oneMatch] "A").winRateQ ≤ 1) :=
  ⟨by decide, claim4_summary_invariants [oneMatch] (mkSummary [oneMatch] "A") (by decide)⟩

/-- C5: a team name heads exactly one summary row when it appears as a
home or away team of some input record, and heads no row otherwise. -/
theorem claim5_one_row_per_team (rs : List MatchRecord) (t : String) :
    ((team_summary rs).filter (fun s => decide (s.team = t))).length =
      if ∃ r ∈ rs, r.home = t ∨ r.away = t then 1 else 0 := by
  rw [team_summary_filter, List.length_map,
    filter_len_of_nodup (sortedTeams rs) (nodup_sortedTeams rs)]
  have hiff : (t ∈ sortedTeams rs) ↔ ∃ r ∈ rs, r.home = t ∨ r.away = t :=
    mem_sortedTeams.trans mem_teamsOf
  simp only [hiff]

/-- C8: on an input with zero match records the aggregator does not
return an empty summary with empty findings: it fails (pandas drops
every all-missing column of the empty frame and the column selection
raises; and were a summary produced, it would be empty and the iloc 0
of the findings step would raise).  In the model both failure points
return none. -/
theorem claim8_empty_input_fails :
    fetch_and_process_data [] = none ∧ team_summary [] = [] ∧
      topTeam (team_summary []) = none := by
  decide

/-- C10: over any input whose records all carry both goal values, the
summed goals-for column of the summary equals the summed
goals-against column: each goal scored in a match is counted once for
its scorer and once against its opponent. -/
theorem claim10_goal_balance (rs : List MatchRecord)
    (_h : ∀ r ∈ rs, r.hGoals.isSome ∧ r.aGoals.isSome) :
    ((team_summary rs).map (fun s => s.total_goals_for)).sum =
      ((team_summary rs).map (fun s => s.total_goals_against)).sum := by
  rw [summary_sum_gf, summary_sum_ga]
  exact allMatches_balance rs

/-- C10 witness at the one-match input. -/
theorem claim10_goal_balance_witness :
    (∀ r ∈ [oneMatch], r.hGoals.isSome ∧ r.aGoals.isSome) ∧
    ((team_summary [oneMatch]).map (fun s => s.total_goals_for)).sum =
      ((team_summary [oneMatch]).map (fun s => s.total_goals_against)).sum :=
  ⟨by decide, claim10_goal_balance [oneMatch] (by decide)⟩

set_option maxRecDepth 40000 in
/-- C6 counterexample: the render operation does not take the
timestamp as an input.  Two worlds with identical files receive the
same summaries, findings, template content and output path, yet the
outputs differ because the substituted timestamp is read from the
ambient clock, which is not among the contracted arguments. -/
theorem claim6_counterexample :
    w6a.files = w6b.files ∧
    generate_html [] [] "out.html" w6a ≠ generate_html [] [] "out.html" w6b := by
  decide

/-- C6 amended: the render operation takes no timestamp argument; it
reads the current clock instant itself, and substitutes every
occurrence of the last_updated token with that instant formatted as
four-digit year, two-digit month, day, hour, minute and second
(YYYY-MM-DD HH:MM:SS, witnessed by the concrete formatting
conjunct). -/
theorem claim6_timestamp_amended (ts : List TeamSummary) (fs : List String)
    (p : String) (w : World) (tmpl : String)
    (h : readFile w templatePath = some tmpl) :
    generate_html ts fs p w =
      some (writeFile w p
        (strReplace
          (strReplace (strReplace tmpl tokLastUpdated (strftime w.now))
            tokRows (teamSummaryRows ts))
          tokFindings (interestingFindings fs))) ∧
    strftime { year := 2024, month := 1, day := 5, hour := 9, minute := 3, second := 7 } =
      "2024-01-05 09:03:07" := by
  constructor
  · unfold generate_html renderHtml
    rw [h]
  · decide

set_option maxRecDepth 40000 in
/-- C6 amended, witness at the concrete world w6a. -/
theorem claim6_timestamp_amended_witness :
    readFile w6a templatePath = some tokLastUpdated ∧
    (generate_html [] [] "out.html" w6a =
      some (writeFile w6a "out.html"
        (strReplace
          (strReplace (strReplace tokLastUpdated tokLastUpdated (strftime w6a.now))
            tokRows (teamSummaryRows []))
          tokFindings (interestingFindings []))) ∧
      strftime { year := 2024, month := 1, day := 5, hour := 9, minute := 3, second := 7 } =
        "2024-01-05 09:03:07") :=
  ⟨by decide, claim6_timestamp_amended [] [] "out.html" w6a tokLastUpdated (by decide)⟩

set_option maxRecDepth 400000 in
/-- C7: placeholder replacement is literal global text substitution.
The renderer is exactly the threefold literal replacement; a template
holding a token twice has both occurrences replaced identically; and
rendering the three-token template of the spec with the one-match
summaries and finding leaves no open double brace and contains the
literal substrings A and 1.00. -/
theorem claim7_literal_global_substitution :
    (∀ (ts : List TeamSummary) (fs : List String) (now : DateTime) (tmpl : String),
        renderHtml ts fs now tmpl =
          strReplace
            (strReplace (strReplace tmpl tokLastUpdated (strftime now))
              tokRows (teamSummaryRows ts))
            tokFindings (interestingFindings fs)) ∧
    strReplace (tokLastUpdated ++ "-mid-" ++ tokLastUpdated) tokLastUpdated "T" =
      "T-mid-T" ∧
    containsStr (renderHtml (team_summary [oneMatch]) [finding7] now7 tmpl7) "\x7b\x7b" = false ∧
    containsStr (renderHtml (team_summary [oneMatch]) [finding7] now7 tmpl7) "A" = true ∧
    containsStr (renderHtml (team_summary [oneMatch]) [finding7] now7 tmpl7) "1.00" = true := by
  refine ⟨fun ts fs now tmpl => rfl, by decide, by decide, by decide, by decide⟩

/-- C9: the template is read from the very path the output is written
to.  The output path constant equals the hard-coded template path, the
first run overwrites the template file with the rendered output, and a
second run reads that rendered output, not a pristine template, as its
template. -/
theorem claim9_template_overwritten (ts ts2 : List TeamSummary)
    (fs fs2 : List String) (w : World) (tmpl : String)
    (h : readFile w templatePath = some tmpl) :
    OUTPUT_PATH = templatePath ∧
    generate_html ts fs OUTPUT_PATH w =
      some (writeFile w OUTPUT_PATH (renderHtml ts fs w.now tmpl)) ∧
    readFile (writeFile w OUTPUT_PATH (renderHtml ts fs w.now tmpl)) templatePath =
      some (renderHtml ts fs w.now tmpl) ∧
    generate_html ts2 fs2 OUTPUT_PATH (writeFile w OUTPUT_PATH (renderHtml ts fs w.now tmpl)) =
      some (writeFile (writeFile w OUTPUT_PATH (renderHtml ts fs w.now tmpl)) OUTPUT_PATH
        (renderHtml ts2 fs2 w.now (renderHtml ts fs w.now tmpl))) := by
  have hread : readFile (writeFile w OUTPUT_PATH (renderHtml ts fs w.now tmpl)) templatePath =
      some (renderHtml ts fs w.now tmpl) := by
    simp [readFile, writeFile, OUTPUT_PATH, templatePath, List.find?]
  refine ⟨rfl, ?_, hread, ?_⟩
  · unfold generate_html
    rw [h]
  · unfold generate_html
    rw [hread]
    rfl

set_option maxRecDepth 400000 in
/-- C9 witness at the concrete world w6a. -/
theorem claim9_template_overwritten_witness :
    readFile w6a templatePath = some tokLastUpdated ∧
    (OUTPUT_PATH = templatePath ∧
      generate_html [] [] OUTPUT_PATH w6a =
        some (writeFile w6a OUTPUT_PATH (renderHtml [] [] w6a.now tokLastUpdated)) ∧
      readFile (writeFile w6a OUTPUT_PATH (renderHtml [] [] w6a.now tokLastUpdated))
          templatePath = some (renderHtml [] [] w6a.now tokLastUpdated) ∧
      generate_html [] [] OUTPUT_PATH
          (writeFile w6a OUTPUT_PATH (renderHtml [] [] w6a.now tokLastUpdated)) =
        some (writeFile (writeFile w6a OUTPUT_PATH (renderHtml [] [] w6a.now tokLastUpdated))
          OUTPUT_PATH (renderHtml [] [] w6a.now (renderHtml [] [] w6a.now tokLastUpdated)))) :=
  ⟨by decide, claim9_template_overwritten [] [] [] [] w6a tokLastUpdated (by decide)⟩

end SoccerBlog
